import Mathlib

/-!
Shallow embedding of the trino-tuner core pipeline (src/src/core) in Lean 4,
together with theorems settling the frozen claims about its specification.

Modelling conventions:
- Python strings are Lean `String`; Python `None`-able strings are `Option String`.
- A result row from the engine collaborator is `List (Option String)`; a cell
  holds `none` for SQL NULL and `some s` for a textual value.
- A fallible collaborator call is `Except String α`; an uncaught Python
  exception escaping a function is modelled by propagating `Except.error`.
- Python float values that flow through the improvement heuristic are modelled
  as exact fractions (an integer numerator over a natural denominator, compared
  by cross multiplication); the claims under study do not depend on binary
  floating point rounding.
- External collaborators (the Trino engine, the generative model, the sqlglot
  grammar) are parameters of the embedding; functions of this repository are
  translated from the source files they live in.
-/

/-- An exact fraction standing for a Python float value: numerator over a
positive power-of-ten denominator as produced by decimal parsing. Ordering is
by cross multiplication, so every comparison is integer arithmetic and fully
evaluates inside the kernel. -/
structure PyFloat where
  num : Int
  den : Nat
deriving Repr, DecidableEq

/-- Value order on fractions by cross multiplication. -/
def PyFloat.le (a b : PyFloat) : Bool :=
  a.num * (b.den : Int) ≤ b.num * (a.den : Int)

/-- Fraction product. -/
def PyFloat.mul (a b : PyFloat) : PyFloat :=
  ⟨a.num * b.num, a.den * b.den⟩

/-- The literal 1.05 of the improvement heuristic. -/
def tolerance105 : PyFloat := ⟨105, 100⟩

/-- Python truthiness of an optional string cell: `None` and the empty string
are falsy, every other string is truthy. -/
def pyCellTruthy : Option String → Bool
  | none => false
  | some s => s ≠ ""

/-- Python `str(cell)`: a missing value renders as the text `None`. -/
def pyStr : Option String → String
  | none => "None"
  | some s => s

/-- The whitespace set stripped by Python `str.strip()` for the ASCII range. -/
def pyIsSpace (c : Char) : Bool :=
  c = ' ' || c = '\t' || c = '\n' || c = '\r' || c = '\x0b' || c = '\x0c'

/-- Strips characters matching `p` from both ends of a character list. -/
def stripWithList (p : Char → Bool) (l : List Char) : List Char :=
  ((l.dropWhile p).reverse.dropWhile p).reverse

/-- Python `str.strip()` with no arguments (whitespace on both ends). -/
def pyStrip (s : String) : String :=
  String.mk (stripWithList pyIsSpace s.data)

/-- Python `opt or dflt` for an optional string: the default is chosen when
the value is `None` or empty. -/
def pyOrOpt (o : Option String) (dflt : String) : String :=
  match o with
  | none => dflt
  | some s => if s = "" then dflt else s

/-- Python `str.startswith`. -/
def pyStartsWith (s pre : String) : Bool :=
  pre.data.isPrefixOf s.data

/-- Python `str.lower()`. -/
def pyLower (s : String) : String :=
  String.mk (s.data.map Char.toLower)

/-- Substring test, as in the Python `needle in hay` operator. -/
def strContainsList (hay needle : List Char) : Bool :=
  needle.isPrefixOf hay ||
    (match hay with
     | [] => false
     | _ :: t => strContainsList t needle)

/-- Substring test on strings. -/
def strContains (hay needle : String) : Bool :=
  strContainsList hay.data needle.data

/-- A result row returned by the engine collaborator. -/
def Row := List (Option String)

/-- The engine execution collaborator: maps a SQL text to either a row list or
an error message (a raised exception carrying that message). Keyed by the
query text, which models a deterministic engine within one run. -/
def Query := String → Except String (List Row)

/-! ## src/src/core/parser.py : TableRef -/

/-- TableRef from src/src/core/parser.py. The sqlglot text properties yield
the empty string for an absent catalog or schema part, so the three parts are
plain strings with the empty string standing for Python falsy values. -/
structure TableRef where
  catalog : String
  schema : String
  table : String
deriving Repr, DecidableEq

/-- TableRef.fqtn: joins the non-empty parts with a dot. -/
def TableRef.fqtn (t : TableRef) : String :=
  String.intercalate "." (([t.catalog, t.schema, t.table]).filter (fun p => p ≠ ""))

/-! ## src/src/core/metadata.py -/

/-- ColumnInfo from src/src/core/metadata.py. -/
structure ColumnInfo where
  name : String
  type : String
deriving Repr, DecidableEq

/-- TableMetadata from src/src/core/metadata.py; the properties dict is an
association list. -/
structure TableMetadata where
  table : TableRef
  columns : List ColumnInfo
  partition_columns : List String
  properties : List (String × String)
deriving Repr, DecidableEq

/-- The `_split_fqtn_for_trino` helper: fills missing catalog and schema parts
from the defaults, using Python truthiness of the string parts. -/
def _split_fqtn_for_trino (table : TableRef) (default_catalog default_schema : String) : TableRef :=
  { catalog := if table.catalog ≠ "" then table.catalog else default_catalog
    schema := if table.schema ≠ "" then table.schema else default_schema
    table := table.table }

/-- One row of a DESCRIBE result turned into a ColumnInfo, mirroring the loop
body of `fetch_table_columns`: a row that is empty or whose first cell is
falsy is skipped; a missing second cell yields the type `unknown`. -/
def describeRowToCol (r : Row) : Option ColumnInfo :=
  match r with
  | [] => none
  | [c] => if pyCellTruthy c then some ⟨pyStr c, "unknown"⟩ else none
  | c :: c2 :: _ => if pyCellTruthy c then some ⟨pyStr c, pyStr c2⟩ else none

/-- `fetch_table_columns` from src/src/core/metadata.py. The DESCRIBE call has
no surrounding try block in the source, so an engine failure propagates as an
error. -/
def fetch_table_columns (query : Query) (table : TableRef)
    (default_catalog default_schema : String) : Except String (List ColumnInfo) := do
  let t := _split_fqtn_for_trino table default_catalog default_schema
  let rows ← query ("DESCRIBE " ++ t.fqtn)
  return rows.filterMap describeRowToCol

/-- `fetch_table_properties_best_effort` from src/src/core/metadata.py. The
SHOW CREATE TABLE call has no surrounding try block in the source, so despite
the name an engine failure propagates as an error. -/
def fetch_table_properties_best_effort (query : Query) (table : TableRef)
    (default_catalog default_schema : String) : Except String (List (String × String)) := do
  let t := _split_fqtn_for_trino table default_catalog default_schema
  let rows ← query ("SHOW CREATE TABLE " ++ t.fqtn)
  let ddl := String.intercalate "\n"
    (rows.filterMap (fun r =>
      match r with
      | [] => none
      | c :: _ => if pyCellTruthy c then some (pyStr c) else none))
  if ddl = "" then
    return []
  else
    return (if strContains ddl "WITH (" then [("has_with_properties", "true")] else [])
      ++ [("create_table_snippet", ddl.take 2000)]

/-- The fixed ordered pattern list checked by partition candidate inference. -/
def partitionLikelyNames : List String :=
  ["ds", "date", "event_date", "dt", "day", "hour", "event_hour", "partition_date"]

/-- `infer_partition_columns_from_properties` from src/src/core/metadata.py:
the properties argument is accepted but unused; each pattern that equals some
lowercased column name is surfaced, in pattern-list order. -/
def infer_partition_columns_from_properties (_props : List (String × String))
    (columns : List ColumnInfo) : List String :=
  partitionLikelyNames.filter (fun likely => columns.any (fun c => pyLower c.name == likely))

/-- `fetch_metadata_for_tables` from src/src/core/metadata.py, instrumented
with the list of engine query texts issued before returning or failing. Any
error from the per-table fetches propagates, as in the source. -/
def fetch_metadata_for_tables (query : Query) (tables : List TableRef)
    (default_catalog default_schema : String) :
    Except String (List TableMetadata) × List String :=
  match tables with
  | [] => (.ok [], [])
  | t :: rest =>
    let tq := (_split_fqtn_for_trino t default_catalog default_schema).fqtn
    match fetch_table_columns query t default_catalog default_schema with
    | .error e => (.error e, ["DESCRIBE " ++ tq])
    | .ok cols =>
      match fetch_table_properties_best_effort query t default_catalog default_schema with
      | .error e => (.error e, ["DESCRIBE " ++ tq, "SHOW CREATE TABLE " ++ tq])
      | .ok props =>
        let part_cols := infer_partition_columns_from_properties props cols
        let meta : TableMetadata :=
          ⟨_split_fqtn_for_trino t default_catalog default_schema, cols, part_cols, props⟩
        let (r, l) := fetch_metadata_for_tables query rest default_catalog default_schema
        (r.map (fun ms => meta :: ms), ["DESCRIBE " ++ tq, "SHOW CREATE TABLE " ++ tq] ++ l)

/-! ## JSON values and a model of Python json.loads -/

/-- JSON values as produced by Python `json.loads`. Numbers are modelled as
exact fractions; the claims under study never compare parsed numbers. -/
inductive JsonV where
  | null
  | bool (b : Bool)
  | num (q : PyFloat)
  | str (s : String)
  | arr (elems : List JsonV)
  | obj (fields : List (String × JsonV))

/-- Python truthiness of a JSON value. -/
def jsonTruthy : JsonV → Bool
  | .null => false
  | .bool b => b
  | .num q => q.num ≠ 0
  | .str s => s ≠ ""
  | .arr l => !l.isEmpty
  | .obj l => !l.isEmpty

/-- Python `dict.get(key)`: the latest binding wins, a JSON null value becomes
Python `None` and is indistinguishable from a missing key. -/
def pyDictGet (fields : List (String × JsonV)) (key : String) : Option JsonV :=
  match fields.reverse.find? (fun kv => kv.fst == key) with
  | none => none
  | some (_, .null) => none
  | some (_, v) => some v

/-- Python `dict.get(key, dflt)`: the default applies only to a missing key. -/
def pyDictGetD (fields : List (String × JsonV)) (key : String) (dflt : JsonV) : Option JsonV :=
  match fields.reverse.find? (fun kv => kv.fst == key) with
  | none => some dflt
  | some (_, .null) => none
  | some (_, v) => some v

/-- Python `val or dflt` over an optional JSON value. -/
def pyJsonOr (o : Option JsonV) (dflt : JsonV) : JsonV :=
  match o with
  | none => dflt
  | some v => if jsonTruthy v then v else dflt

/-- Whitespace skipped between JSON tokens. -/
def jsonSkipWs (l : List Char) : List Char :=
  l.dropWhile (fun c => c = ' ' || c = '\t' || c = '\n' || c = '\r')

/-- Hexadecimal digit value for a unicode escape. -/
def hexVal (c : Char) : Option Nat :=
  if c.isDigit then some (c.toNat - '0'.toNat)
  else if 'a' ≤ c ∧ c ≤ 'f' then some (c.toNat - 'a'.toNat + 10)
  else if 'A' ≤ c ∧ c ≤ 'F' then some (c.toNat - 'A'.toNat + 10)
  else none

/-- Body of a JSON string literal after the opening quote: returns the decoded
characters and the remainder after the closing quote. -/
def parseStrRest : List Char → Option (List Char × List Char)
  | [] => none
  | '"' :: rest => some ([], rest)
  | '\\' :: 'u' :: a :: b :: c :: d :: rest =>
    match hexVal a, hexVal b, hexVal c, hexVal d with
    | some x, some y, some z, some w =>
      (parseStrRest rest).map (fun (s, r) =>
        (Char.ofNat (x * 4096 + y * 256 + z * 16 + w) :: s, r))
    | _, _, _, _ => none
  | '\\' :: e :: rest =>
    let dec : Option Char :=
      if e = '"' then some '"'
      else if e = '\\' then some '\\'
      else if e = '/' then some '/'
      else if e = 'n' then some '\n'
      else if e = 't' then some '\t'
      else if e = 'r' then some '\r'
      else if e = 'b' then some (Char.ofNat 8)
      else if e = 'f' then some (Char.ofNat 12)
      else none
    match dec with
    | none => none
    | some ch => (parseStrRest rest).map (fun (s, r) => (ch :: s, r))
  | c :: rest => (parseStrRest rest).map (fun (s, r) => (c :: s, r))

/-- Digit list to natural number. -/
def digitsToNat (l : List Char) : Nat :=
  l.foldl (fun acc c => acc * 10 + (c.toNat - '0'.toNat)) 0

/-- Applies a signed decimal exponent to a fraction given as integer digits
over a power of ten. -/
def applyExponent (mant : Int) (den : Nat) (ex : Int) : PyFloat :=
  if 0 ≤ ex then ⟨mant * ((10 : Int) ^ ex.toNat), den⟩
  else ⟨mant, den * 10 ^ (-ex).toNat⟩

/-- JSON number literal: optional minus, integer digits, optional fraction,
optional exponent. Returns the exact fraction value. -/
def parseNumber (l : List Char) : Option (PyFloat × List Char) :=
  let (neg, l1) := match l with
    | '-' :: t => (true, t)
    | _ => (false, l)
  let intDigits := l1.takeWhile Char.isDigit
  let l2 := l1.dropWhile Char.isDigit
  if intDigits.isEmpty then none else
  let (fracDigits, l3) := match l2 with
    | '.' :: t =>
      let fd := t.takeWhile Char.isDigit
      if fd.isEmpty then ([], l2) else (fd, t.dropWhile Char.isDigit)
    | _ => ([], l2)
  let expPart : Option (Int × List Char) := match l3 with
    | 'e' :: t | 'E' :: t =>
      let (esign, t1) := match t with
        | '+' :: u => ((1 : Int), u)
        | '-' :: u => ((-1 : Int), u)
        | _ => ((1 : Int), t)
      let ed := t1.takeWhile Char.isDigit
      if ed.isEmpty then none else some (esign * (digitsToNat ed : Int), t1.dropWhile Char.isDigit)
    | _ => some (0, l3)
  match expPart with
  | none => none
  | some (ex, l4) =>
    let mant : Int := (digitsToNat (intDigits ++ fracDigits) : Int)
    some (applyExponent (if neg then -mant else mant) (10 ^ fracDigits.length) ex, l4)

mutual

/-- JSON value parser with explicit fuel. -/
def parseVal (fuel : Nat) (l : List Char) : Option (JsonV × List Char) :=
  match fuel with
  | 0 => none
  | f + 1 =>
    match jsonSkipWs l with
    | '{' :: rest => parseObjBody f (jsonSkipWs rest)
    | '[' :: rest => parseArrBody f (jsonSkipWs rest)
    | '"' :: rest => (parseStrRest rest).map (fun (s, r) => (.str (String.mk s), r))
    | 't' :: 'r' :: 'u' :: 'e' :: rest => some (.bool true, rest)
    | 'f' :: 'a' :: 'l' :: 's' :: 'e' :: rest => some (.bool false, rest)
    | 'n' :: 'u' :: 'l' :: 'l' :: rest => some (.null, rest)
    | rest => (parseNumber rest).map (fun (q, r) => (.num q, r))

/-- Object body after the opening brace and leading whitespace. -/
def parseObjBody (fuel : Nat) (l : List Char) : Option (JsonV × List Char) :=
  match fuel with
  | 0 => none
  | f + 1 =>
    match l with
    | '}' :: rest => some (.obj [], rest)
    | _ => parseMembers f l []

/-- Members of a JSON object. -/
def parseMembers (fuel : Nat) (l : List Char) (acc : List (String × JsonV)) :
    Option (JsonV × List Char) :=
  match fuel with
  | 0 => none
  | f + 1 =>
    match jsonSkipWs l with
    | '"' :: rest =>
      match parseStrRest rest with
      | none => none
      | some (key, r1) =>
        match jsonSkipWs r1 with
        | ':' :: r2 =>
          match parseVal f r2 with
          | none => none
          | some (v, r3) =>
            match jsonSkipWs r3 with
            | ',' :: r4 => parseMembers f r4 (acc ++ [(String.mk key, v)])
            | '}' :: r4 => some (.obj (acc ++ [(String.mk key, v)]), r4)
            | _ => none
        | _ => none
    | _ => none

/-- Array body after the opening bracket and leading whitespace. -/
def parseArrBody (fuel : Nat) (l : List Char) : Option (JsonV × List Char) :=
  match fuel with
  | 0 => none
  | f + 1 =>
    match l with
    | ']' :: rest => some (.arr [], rest)
    | _ => parseElems f l []

/-- Elements of a JSON array. -/
def parseElems (fuel : Nat) (l : List Char) (acc : List JsonV) :
    Option (JsonV × List Char) :=
  match fuel with
  | 0 => none
  | f + 1 =>
    match parseVal f l with
    | none => none
    | some (v, r1) =>
      match jsonSkipWs r1 with
      | ',' :: r2 => parseElems f r2 (acc ++ [v])
      | ']' :: r2 => some (.arr (acc ++ [v]), r2)
      | _ => none

end

/-- Model of Python `json.loads`: parses one JSON document and rejects
trailing content. Fuel generously bounded by the text length. -/
def json_loads (s : String) : Option JsonV :=
  match parseVal (4 * s.data.length + 8) s.data with
  | none => none
  | some (v, rest) => if (jsonSkipWs rest).isEmpty then some v else none

/-! ## src/src/core/llm.py -/

/-- LLMResult from src/src/core/llm.py. Field values taken from parsed JSON
keep their runtime JSON shape, since the source performs no shape checks. -/
structure LLMResult where
  ok : Bool
  optimized_sql : Option JsonV := none
  changes : Option JsonV := none
  assumptions : Option JsonV := none
  risk : Option JsonV := none
  raw_text : Option String := none
  error : Option String := none

/-- The part of `_parse_json_strict` before `json.loads`: strip whitespace,
then when the text starts with a code fence, strip backticks from both ends
and drop through the first newline when one exists. -/
def stripFences (text : String) : String :=
  let t := pyStrip text
  if pyStartsWith t "```" then
    let t2 := String.mk (stripWithList (fun c => c = '`') t.data)
    let afterNl := match t2.data.dropWhile (fun c => c ≠ '\n') with
      | [] => t2
      | _ :: rest => String.mk rest
    pyStrip afterNl
  else t

/-- `_parse_json_strict` from src/src/core/llm.py: fence stripping followed by
`json.loads`; `none` models a raised JSONDecodeError. -/
def _parse_json_strict (text : String) : Option JsonV :=
  json_loads (stripFences text)

/-- Error text standing for the `str(e)` of a JSONDecodeError raised inside
the try block of `LLMClient.optimize`. -/
def jsonDecodeErrText : String := "Expecting value: invalid JSON in model output"

/-- Error text standing for the `str(e)` of the AttributeError raised when
`.get` is called on a parsed document that is not a dict. -/
def getOnNonDictErrText : String := "AttributeError: object has no attribute get"

/-- `LLMClient.optimize` from src/src/core/llm.py, modelled from the point the
model collaborator answers: the argument is either the raw response text or a
raised exception message. Every exception inside the try block becomes a
result with `ok := false`. -/
def llm_optimize (raw : Except String String) : LLMResult :=
  match raw with
  | .error e => { ok := false, error := some e }
  | .ok text =>
    match _parse_json_strict text with
    | none => { ok := false, error := some jsonDecodeErrText }
    | some (.obj fields) =>
      { ok := true
        optimized_sql := pyDictGet fields "optimized_sql"
        changes := pyDictGetD fields "changes" (.arr [])
        assumptions := pyDictGetD fields "assumptions" (.arr [])
        risk := pyDictGet fields "risk"
        raw_text := some text }
    | some _ => { ok := false, error := some getOnNonDictErrText }

/-- The acceptance test the orchestrator applies to a model result before
using its SQL, from src/src/core/optimizer.py line 162:
`if not res.ok or not res.optimized_sql`. -/
def llmOutputUsable (res : LLMResult) : Bool :=
  res.ok && (match res.optimized_sql with
             | none => false
             | some v => jsonTruthy v)

/-! ## sqlglot parse trees and src/src/core/parser.py -/

/-- A sqlglot expression tree, reduced to what the source consumes: the class
name of each node, the three text properties read from Table nodes (empty
string when absent), and the child list. The sqlglot grammar itself is an
external collaborator; concrete trees for concrete SQL texts are modelled
from the behaviour of sqlglot parse_one with the trino dialect. -/
inductive SqlAst where
  | node (kind : String) (name db catalog : String) (children : List SqlAst)

/-- Class name of the root node. -/
def SqlAst.kind : SqlAst → String
  | .node k _ _ _ _ => k

mutual

/-- Whether the tree or any subtree is a Select node, as computed by the
sqlglot `find` walk used in `_is_read_only_select`. -/
def SqlAst.hasSelect : SqlAst → Bool
  | .node k _ _ _ children => k == "Select" || hasSelectList children

/-- Select search over a child list. -/
def hasSelectList : List SqlAst → Bool
  | [] => false
  | a :: rest => a.hasSelect || hasSelectList rest

end

/-- `_is_read_only_select` from src/src/core/optimizer.py: a parse failure is
rejected; otherwise the statement is accepted when the tree is a Select or
contains a Select anywhere, which is exactly a Select search over the whole
tree. The argument is the outcome of the external sqlglot parse. -/
def _is_read_only_select (parsed : Option SqlAst) : Bool :=
  match parsed with
  | none => false
  | some tree => tree.hasSelect

mutual

/-- Preorder collection of Table nodes, as in the sqlglot `find_all` walk
used by `extract_tables_trino`: each Table node yields its name, db and
catalog text properties. -/
def SqlAst.tableNodes : SqlAst → List (String × String × String)
  | .node k name db catalog children =>
    (if k == "Table" then [(catalog, db, name)] else []) ++ tableNodesList children

/-- Table collection over a child list. -/
def tableNodesList : List SqlAst → List (String × String × String)
  | [] => []
  | a :: rest => a.tableNodes ++ tableNodesList rest

end

/-- `extract_tables_trino` from src/src/core/parser.py: a parse failure
raises (the source has no try block); otherwise Table nodes with a non-empty
name are collected in walk order, de-duplicated on the catalog, db and name
triple, keeping first occurrences. -/
def extract_tables_trino (parsed : Option SqlAst) : Except String (List TableRef) :=
  match parsed with
  | none => .error "sqlglot ParseError"
  | some tree =>
    .ok (tree.tableNodes.foldl
      (fun acc cdn =>
        match cdn with
        | (catalog, db, name) =>
          if name = "" then acc
          else if acc.any (fun x => x.catalog = catalog ∧ x.schema = db ∧ x.table = name) then acc
          else acc ++ [⟨catalog, db, name⟩])
      [])

/-! ## src/src/core/explain.py -/

/-- ExplainResult from src/src/core/explain.py. -/
structure ExplainResult where
  ok : Bool
  text : String
  error : Option String := none
  estimated_rows : Option PyFloat := none
  estimated_cpu : Option String := none
deriving Repr, DecidableEq

/-- Characters matched by the `\s` class of the signal regex. -/
def isRegexSpace (c : Char) : Bool :=
  c = ' ' || c = '\t' || c = '\n' || c = '\r' || c = '\x0b' || c = '\x0c'

/-- Characters of the capture class `[0-9.eE+]` of the signal regex. -/
def isSigChar (c : Char) : Bool :=
  c.isDigit || c = '.' || c = 'e' || c = 'E' || c = '+'

/-- Search for the regex `rows:\s*([0-9.eE+]+)` in the plan text: the first
position where the literal label is followed by optional whitespace and at
least one capture-class character yields the captured group. -/
def findRowsMatch : List Char → Option String
  | [] => none
  | c :: t =>
    match c, t with
    | 'r', 'o' :: 'w' :: 's' :: ':' :: rest =>
      let grp := (rest.dropWhile isRegexSpace).takeWhile isSigChar
      if grp.isEmpty then findRowsMatch t else some (String.mk grp)
    | _, _ => findRowsMatch t

/-- Python `float()` restricted to the capture-class alphabet: an optional
sign, a mantissa with at least one digit and at most one dot, and an optional
exponent with at least one digit. Any leftover character raises, which yields
`none`. The value is modelled as an exact fraction. -/
def pyFloat (s : String) : Option PyFloat :=
  let l := s.data
  let l1 := match l with
    | '+' :: t => t
    | _ => l
  let intDigits := l1.takeWhile Char.isDigit
  let l2 := l1.dropWhile Char.isDigit
  let (fracDigits, l3, hadDot) := match l2 with
    | '.' :: t => (t.takeWhile Char.isDigit, t.dropWhile Char.isDigit, true)
    | _ => ([], l2, false)
  if intDigits.isEmpty ∧ (¬ hadDot ∨ fracDigits.isEmpty) then none else
  let expPart : Option (Int × List Char) := match l3 with
    | 'e' :: t | 'E' :: t =>
      let (esign, t1) := match t with
        | '+' :: u => ((1 : Int), u)
        | '-' :: u => ((-1 : Int), u)
        | _ => ((1 : Int), t)
      let ed := t1.takeWhile Char.isDigit
      if ed.isEmpty then none else some (esign * (digitsToNat ed : Int), t1.dropWhile Char.isDigit)
    | _ => some (0, l3)
  match expPart with
  | none => none
  | some (ex, l4) =>
    if l4.isEmpty then
      some (applyExponent (digitsToNat (intDigits ++ fracDigits) : Int) (10 ^ fracDigits.length) ex)
    else none

/-- `run_explain` together with `_populate_signals` from
src/src/core/explain.py, applied to the engine response for the EXPLAIN
query: a raised engine error becomes a failed result; otherwise the first
cells of non-empty rows with a non-null first cell are joined into the plan
text, and the row estimate is populated on a regex match whose text parses as
a float. -/
def run_explain (resp : Except String (List Row)) : ExplainResult :=
  match resp with
  | .error e => { ok := false, text := "", error := some e }
  | .ok rows =>
    let plan := String.intercalate "\n"
      (rows.filterMap (fun r =>
        match r with
        | [] => none
        | none :: _ => none
        | some s :: _ => some s))
    { ok := true, text := plan, estimated_rows := (findRowsMatch plan.data).bind pyFloat }

/-! ## Unified diff, modelling difflib.unified_diff as used by `_diff_text` -/

/-- Line-break characters recognised by Python `str.splitlines` in the ASCII
range. -/
def isLineBreak (c : Char) : Bool :=
  c = '\n' || c = '\r' || c = '\x0b' || c = '\x0c'

/-- Python `str.splitlines()` with keepends false: accumulator based split,
treating a carriage return followed by a newline as one break and emitting no
trailing empty line. -/
def pySplitLinesAux : List Char → List Char → List String
  | [], acc => match acc with
    | [] => []
    | _ => [String.mk acc.reverse]
  | '\r' :: '\n' :: t, acc => String.mk acc.reverse :: pySplitLinesAux t []
  | c :: t, acc =>
    if isLineBreak c then String.mk acc.reverse :: pySplitLinesAux t []
    else pySplitLinesAux t (c :: acc)

/-- Python `str.splitlines()`. -/
def pySplitLines (s : String) : List String :=
  pySplitLinesAux s.data []

/-- Opcode tags of difflib. -/
inductive DiffTag where
  | equal
  | replace
  | delete
  | insert
deriving Repr, DecidableEq

/-- One difflib opcode: a tag and two half-open index ranges. Indices are
integers because the grouping arithmetic of difflib subtracts below zero
before clamping with max. -/
structure Opcode where
  tag : DiffTag
  i1 : Int
  i2 : Int
  j1 : Int
  j2 : Int
deriving Repr, DecidableEq

/-- Length of the longest common leading run of two line lists. -/
def commonPrefixLen : List String → List String → Nat
  | a :: as, b :: bs => if a == b then commonPrefixLen as bs + 1 else 0
  | _, _ => 0

/-- Modelled from the spec: the SequenceMatcher opcode computation of difflib
is external library behaviour; it is modelled by matching the common leading
and trailing runs as equal blocks with a single replace, delete or insert
opcode for the middle. On identical sequences this coincides exactly with
difflib, which yields one equal opcode spanning the whole sequence. -/
def pyOpcodes (a b : List String) : List Opcode :=
  let p := commonPrefixLen a b
  let a1 := a.drop p
  let b1 := b.drop p
  let s := commonPrefixLen a1.reverse b1.reverse
  let la := a1.length - s
  let lb := b1.length - s
  let mid : List Opcode :=
    if la = 0 ∧ lb = 0 then []
    else if la = 0 then [⟨.insert, p, p, p, p + lb⟩]
    else if lb = 0 then [⟨.delete, p, p + la, p, p⟩]
    else [⟨.replace, p, p + la, p, p + lb⟩]
  (if 0 < p then [⟨.equal, 0, p, 0, p⟩] else []) ++ mid ++
    (if 0 < s then [⟨.equal, p + la, p + la + s, p + lb, p + lb + s⟩] else [])

/-- First step of difflib get_grouped_opcodes: trim a leading equal opcode to
the context width. -/
def adjustFirstOpcode (n : Int) : List Opcode → List Opcode
  | [] => []
  | c :: rest =>
    if c.tag = .equal then
      { c with i1 := max c.i1 (c.i2 - n), j1 := max c.j1 (c.j2 - n) } :: rest
    else c :: rest

/-- Second step of difflib get_grouped_opcodes: trim a trailing equal opcode
to the context width. -/
def adjustLastOpcode (n : Int) : List Opcode → List Opcode
  | [] => []
  | [c] =>
    if c.tag = .equal then
      [{ c with i2 := min c.i2 (c.i1 + n), j2 := min c.j2 (c.j1 + n) }]
    else [c]
  | c :: rest => c :: adjustLastOpcode n rest

/-- The grouping loop of difflib get_grouped_opcodes: a large interior equal
range closes the current group; a final group consisting of one equal opcode
is dropped. -/
def groupOpcodesLoop (n : Int) : List Opcode → List Opcode → List (List Opcode)
  | [], group =>
    if group.isEmpty then []
    else match group with
      | [g] => if g.tag = .equal then [] else [group]
      | _ => [group]
  | c :: rest, group =>
    if c.tag = .equal ∧ c.i2 - c.i1 > n + n then
      let closing := { c with i2 := min c.i2 (c.i1 + n), j2 := min c.j2 (c.j1 + n) }
      let reopened := { c with i1 := max c.i1 (c.i2 - n), j1 := max c.j1 (c.j2 - n) }
      (group ++ [closing]) :: groupOpcodesLoop n rest [reopened]
    else groupOpcodesLoop n rest (group ++ [c])

/-- difflib get_grouped_opcodes with context width `n`: an empty opcode list
is replaced by a unit equal opcode, the two ends are trimmed and the grouping
loop runs. -/
def getGroupedOpcodes (n : Int) (a b : List String) : List (List Opcode) :=
  let codes := pyOpcodes a b
  let codes := if codes.isEmpty then [⟨.equal, 0, 1, 0, 1⟩] else codes
  let codes := adjustFirstOpcode n codes
  let codes := adjustLastOpcode n codes
  groupOpcodesLoop n codes []

/-- difflib _format_range_unified. -/
def formatRangeUnified (start stop : Int) : String :=
  let beginning := start + 1
  let length := stop - start
  if length = 1 then toString beginning
  else toString (if length = 0 then start else beginning) ++ "," ++ toString length

/-- Python list slice `lines[i1:i2]` for the in-range indices produced by the
opcode computation. -/
def sliceLines (lines : List String) (i1 i2 : Int) : List String :=
  (lines.take i2.toNat).drop i1.toNat

/-- Lines emitted for one opcode group by difflib unified_diff. -/
def emitGroup (a b : List String) (lineterm : String) (group : List Opcode) : List String :=
  let first := group.headD ⟨.equal, 0, 0, 0, 0⟩
  let last := group.getLastD ⟨.equal, 0, 0, 0, 0⟩
  let header := "@@ -" ++ formatRangeUnified first.i1 last.i2 ++ " +"
    ++ formatRangeUnified first.j1 last.j2 ++ " @@" ++ lineterm
  header :: group.flatMap (fun c =>
    if c.tag = .equal then (sliceLines a c.i1 c.i2).map (fun line => " " ++ line)
    else
      (if c.tag = .replace ∨ c.tag = .delete then
        (sliceLines a c.i1 c.i2).map (fun line => "-" ++ line) else [])
      ++ (if c.tag = .replace ∨ c.tag = .insert then
        (sliceLines b c.j1 c.j2).map (fun line => "+" ++ line) else []))

/-- difflib unified_diff with context width 3: the two file headers are
emitted before the first group only. -/
def unifiedDiff (a b : List String) (fromfile tofile lineterm : String) : List String :=
  match getGroupedOpcodes 3 a b with
  | [] => []
  | groups =>
    ("--- " ++ fromfile ++ lineterm) :: ("+++ " ++ tofile ++ lineterm)
      :: groups.flatMap (emitGroup a b lineterm)

/-- `_diff_text` from src/src/core/optimizer.py: a unified line diff of the
two texts joined by newlines, with the fixed file labels and an empty line
terminator. -/
def _diff_text (a b : String) : String :=
  String.intercalate "\n"
    (unifiedDiff (pySplitLines a) (pySplitLines b) "original.sql" "optimized.sql" "")

/-! ## src/src/core/optimizer.py -/

/-- The optimizer-relevant fields of Settings from src/src/core/settings.py,
with their declared defaults. -/
structure Settings where
  trino_catalog : String := "hive"
  trino_schema : String := "default"
  max_fix_attempts : Nat := 2
  read_only_mode : Bool := true

/-- OptimizeResponse from src/src/core/optimizer.py. The three llm fields
keep the runtime JSON shape the source stores in them. -/
structure OptimizeResponse where
  ok : Bool
  original_sql : String
  optimized_sql : Option String
  explain_before : ExplainResult
  explain_after : Option ExplainResult
  tables : List String
  metadata : List TableMetadata
  attempts : Nat
  diff : String
  error : Option String := none
  llm_changes : Option JsonV := none
  llm_assumptions : Option JsonV := none
  llm_risk : Option JsonV := none

/-- `_is_improved` from src/src/core/optimizer.py: a failed candidate explain
is never improved; with both row estimates present the candidate must stay
within five percent of the baseline; otherwise a successful explain is
accepted. -/
def _is_improved (before after : ExplainResult) : Bool :=
  if !after.ok then false
  else
    match before.estimated_rows, after.estimated_rows with
    | some b, some a => PyFloat.le a (b.mul tolerance105)
    | _, _ => true

/-- The collaborators of one pipeline run. The model response is keyed by the
attempt index, since the prompt text is opaque to every claim and the model
collaborator is free to answer each call differently; the parse function
models sqlglot parse_one with the trino dialect, `none` standing for a raised
ParseError. -/
structure Env where
  query : Query
  llm : Nat → Except String String
  parse : String → Option SqlAst

/-- Instrumentation of one run: the engine query texts issued, the number of
model invocations, and every per-attempt failure reason in the order it was
recorded into `last_error`. -/
structure CallLog where
  engine : List String := []
  llmCalls : Nat := 0
  reasons : List String := []

/-- The loop-local mutable state of the attempt loop in `optimize_sql`. -/
structure LoopSt where
  candidate_sql : Option String := none
  explain_after : Option ExplainResult := none
  llm_changes : Option JsonV := none
  llm_assumptions : Option JsonV := none
  llm_risk : Option JsonV := none
  last_error : Option String := none
  attempts : Nat := 0

/-- The failure response built after the loop exhausts, from
src/src/core/optimizer.py lines 201 to 217. -/
def exhaustedResponse (original_sql : String) (explain_before : ExplainResult)
    (tables : List String) (metas : List TableMetadata) (st : LoopSt) : OptimizeResponse :=
  { ok := false
    original_sql := original_sql
    optimized_sql := st.candidate_sql
    explain_before := explain_before
    explain_after := st.explain_after
    tables := tables
    metadata := metas
    attempts := st.attempts
    diff := match st.candidate_sql with
      | some c => if c ≠ "" then _diff_text original_sql c else ""
      | none => ""
    error := some (pyOrOpt st.last_error "Failed to produce a valid optimized query")
    llm_changes := st.llm_changes
    llm_assumptions := st.llm_assumptions
    llm_risk := st.llm_risk }

/-- Outcome of one iteration of the attempt loop: the success return, an
uncaught exception, or a continue with the recorded failure reason. -/
inductive StepOut where
  | done (resp : OptimizeResponse)
  | crash (e : String)
  | next (reason : String) (st : LoopSt)

/-- One iteration of the attempt loop of `optimize_sql`, lines 148 to 199 of
src/src/core/optimizer.py, together with the engine query text this iteration
issues. A crash models the uncaught AttributeError the source raises by
calling `.strip()` on a truthy non-string value sitting in
`res.optimized_sql`. -/
def attemptStep (env : Env) (s : Settings) (original_sql : String)
    (explain_before : ExplainResult) (tables : List String) (metas : List TableMetadata)
    (i : Nat) (st : LoopSt) : StepOut × List String :=
  let st := { st with attempts := i + 1 }
  let res := llm_optimize (env.llm i)
  if !(llmOutputUsable res) then
    (.next (pyOrOpt res.error "LLM returned empty output") st, [])
  else
    match res.optimized_sql with
    | some (.str cand) =>
      let candidate := pyStrip cand
      let st := { st with
        candidate_sql := some candidate
        llm_changes := some (pyJsonOr res.changes (.arr []))
        llm_assumptions := some (pyJsonOr res.assumptions (.arr []))
        llm_risk := some (pyJsonOr res.risk (.str "unknown")) }
      if s.read_only_mode && !(_is_read_only_select (env.parse candidate)) then
        (.next "Candidate SQL is not SELECT-only (read_only_mode)." st, [])
      else
        let ea := run_explain (env.query ("EXPLAIN " ++ candidate))
        let st := { st with explain_after := some ea }
        if !ea.ok then
          (.next ("EXPLAIN failed: " ++ pyStr ea.error) st, ["EXPLAIN " ++ candidate])
        else if _is_improved explain_before ea then
          (.done { ok := true
                   original_sql := original_sql
                   optimized_sql := some candidate
                   explain_before := explain_before
                   explain_after := some ea
                   tables := tables
                   metadata := metas
                   attempts := st.attempts
                   diff := _diff_text original_sql candidate
                   llm_changes := st.llm_changes
                   llm_assumptions := st.llm_assumptions
                   llm_risk := st.llm_risk }, ["EXPLAIN " ++ candidate])
        else
          (.next "Candidate SQL did not appear improved based on EXPLAIN signals." st,
           ["EXPLAIN " ++ candidate])
    | _ => (.crash "AttributeError: strip called on a non-string optimized_sql", [])

/-- The attempt loop of `optimize_sql`, lines 146 to 217: `remaining` counts
the iterations left of `range(max_fix_attempts + 1)` and `i` is the current
iteration index. Each continue records its failure reason into `last_error`
and into the log. -/
def attemptLoop (env : Env) (s : Settings) (original_sql : String)
    (explain_before : ExplainResult) (tables : List String) (metas : List TableMetadata) :
    Nat → Nat → LoopSt → CallLog → Except String OptimizeResponse × CallLog
  | 0, _, st, log => (.ok (exhaustedResponse original_sql explain_before tables metas st), log)
  | remaining + 1, i, st, log =>
    let log := { log with llmCalls := log.llmCalls + 1 }
    match attemptStep env s original_sql explain_before tables metas i st with
    | (.done resp, eq) => (.ok resp, { log with engine := log.engine ++ eq })
    | (.crash e, eq) => (.error e, { log with engine := log.engine ++ eq })
    | (.next reason st', eq) =>
      attemptLoop env s original_sql explain_before tables metas remaining (i + 1)
        { st' with last_error := some reason }
        { log with engine := log.engine ++ eq, reasons := log.reasons ++ [reason] }

/-- `optimize_sql` from src/src/core/optimizer.py, paired with the call log.
An error value models an uncaught exception escaping the function; the only
sources are the sqlglot parse inside `extract_tables_trino`, the engine calls
inside the metadata fetch, and the `.strip()` on a non-string model value,
none of which sit inside a try block in the source. -/
def optimize_sql (env : Env) (s : Settings) (sql : String) :
    Except String OptimizeResponse × CallLog :=
  let original_sql := pyStrip sql
  if original_sql = "" then
    (.ok { ok := false
           original_sql := ""
           optimized_sql := none
           explain_before := { ok := false, text := "", error := some "Empty SQL" }
           explain_after := none
           tables := []
           metadata := []
           attempts := 0
           diff := ""
           error := some "Empty SQL" }, {})
  else if s.read_only_mode && !(_is_read_only_select (env.parse original_sql)) then
    (.ok { ok := false
           original_sql := original_sql
           optimized_sql := none
           explain_before := { ok := false, text := ""
                               error := some "Only SELECT queries are allowed in read_only_mode" }
           explain_after := none
           tables := []
           metadata := []
           attempts := 0
           diff := ""
           error := some "Only SELECT queries are allowed in read_only_mode" }, {})
  else
    let log : CallLog := { engine := ["EXPLAIN " ++ original_sql] }
    let explain_before := run_explain (env.query ("EXPLAIN " ++ original_sql))
    if !explain_before.ok then
      (.ok { ok := false
             original_sql := original_sql
             optimized_sql := none
             explain_before := explain_before
             explain_after := none
             tables := []
             metadata := []
             attempts := 0
             diff := ""
             error := some ("EXPLAIN failed for original SQL: " ++ pyStr explain_before.error) },
       log)
    else
      match extract_tables_trino (env.parse original_sql) with
      | .error e => (.error e, log)
      | .ok table_refs =>
        let tables := table_refs.map TableRef.fqtn
        let (metaRes, metaQueries) :=
          fetch_metadata_for_tables env.query table_refs s.trino_catalog s.trino_schema
        let log := { log with engine := log.engine ++ metaQueries }
        match metaRes with
        | .error e => (.error e, log)
        | .ok metas =>
          attemptLoop env s original_sql explain_before tables metas
            (s.max_fix_attempts + 1) 0 {} log

/-! ## Concrete collaborator behaviours used by witnesses and counterexamples -/

/-- Sqlglot parse tree, modelled from the trino-dialect parse of the text
`SELECT x FROM t`: a Select root over one Table node named `t`. -/
def selectFromTAst : SqlAst :=
  .node "Select" "" "" "" [.node "Table" "t" "" "" []]

/-- Sqlglot parse tree, modelled from the trino-dialect parse of the text
`INSERT INTO tgt SELECT * FROM src`: an Insert root whose expression child is
a Select over the Table node named `src`, with the target Table `tgt` as the
other child. -/
def insertSelectAst : SqlAst :=
  .node "Insert" "" "" "" [.node "Table" "tgt" "" "" [],
    .node "Select" "" "" "" [.node "Table" "src" "" "" []]]

/-- Modelled from the spec: a query-only (non-mutating) statement is one that
parses as a SELECT, possibly under a WITH, which sqlglot represents as a
Select root. -/
def isQueryOnlyStatement (tree : SqlAst) : Bool :=
  tree.kind == "Select"

/-- Engine behaviour for the happy-path run: the baseline plan estimates 1000
rows, the candidate plan estimates 900 rows, and the single table describes
two columns. -/
def happyQuery : Query := fun q =>
  if q = "EXPLAIN SELECT x FROM t" then .ok [[some "rows: 1000"]]
  else if q = "EXPLAIN SELECT y FROM t" then .ok [[some "rows: 900"]]
  else if q = "DESCRIBE hive.default.t" then
    .ok [[some "x", some "varchar"], [some "ds", some "date"]]
  else .ok []

/-- Parse behaviour for the happy-path run. -/
def happyParse : String → Option SqlAst := fun q =>
  if q = "SELECT x FROM t" then some selectFromTAst
  else if q = "SELECT y FROM t" then some selectFromTAst
  else none

/-- Model payload answered on the first attempt of the happy-path run. -/
def happyPayload : String :=
  "\x7b\"optimized_sql\": \"SELECT y FROM t\", \"changes\": [\"c\"], \"assumptions\": [], \"risk\": \"low\"\x7d"

/-- The happy-path collaborators: first model attempt answers the contract
payload carrying an improved candidate. -/
def happyEnv : Env :=
  { query := happyQuery
    llm := fun i => if i = 0 then .ok happyPayload else .error "no further calls"
    parse := happyParse }

/-- Settings with the declared defaults. -/
def happySettings : Settings := {}

/-- Collaborators whose model always fails: every attempt records the same
failure reason and the loop exhausts. -/
def modelDownEnv : Env :=
  { happyEnv with llm := fun _ => .error "model down" }

/-- Collaborators whose engine always raises: the baseline explain fails. -/
def engineDownEnv : Env :=
  { happyEnv with query := fun _ => .error "connection refused" }

/-- The exact structured payload named by the round-trip claim. -/
def contractPayload : String :=
  "\x7b\"optimized_sql\":\"SELECT 1\",\"changes\":[\"x\"],\"assumptions\":[],\"risk\":\"low\"\x7d"

/-- The round-trip payload wrapped in a fenced code block. -/
def contractPayloadFenced : String :=
  "```json\n" ++ contractPayload ++ "\n```"

/-- A syntactically valid JSON object that does not follow the contract
shape. -/
def wrongShapePayload : String := "\x7b\"foo\": 1\x7d"

/-! ## Further concrete collaborator behaviours -/

/-- Engine behaviour under which the DESCRIBE request for the single table
raises. -/
def describeFailsQuery : Query := fun q =>
  if q = "DESCRIBE hive.default.events" then
    .error "TABLE_NOT_FOUND: Table hive.default.events does not exist"
  else .ok []

/-- Engine behaviour under which DESCRIBE succeeds but the SHOW CREATE TABLE
request raises. -/
def showCreateFailsQuery : Query := fun q =>
  if q = "SHOW CREATE TABLE hive.default.events" then
    .error "Access Denied: Cannot show create table"
  else if q = "DESCRIBE hive.default.events" then .ok [[some "id", some "bigint"]]
  else .ok []

/-- Collaborators for the attempted optimization of a mutating statement:
the parse is the modelled sqlglot tree of the INSERT with a SELECT subquery,
and both external calls fail if ever reached. -/
def insertEnv : Env :=
  { query := fun _ => .error "engine raised"
    llm := fun _ => .error "model raised"
    parse := fun q =>
      if q = "INSERT INTO tgt SELECT * FROM src" then some insertSelectAst else none }

/-- A contract shaped payload whose optimized_sql value is a number rather
than a string. -/
def nonStringSqlPayload : String := "\x7b\"optimized_sql\": 5\x7d"

/-- Collaborators whose model answers a JSON object carrying a truthy
non-string optimized_sql value. -/
def nonStringEnv : Env :=
  { happyEnv with llm := fun _ => .ok nonStringSqlPayload }

/-- The default response used only to totalise extraction of a computed
response from a run known to return one. -/
def fallbackResponse : OptimizeResponse :=
  { ok := false, original_sql := "", optimized_sql := none
    explain_before := { ok := false, text := "" }, explain_after := none
    tables := [], metadata := [], attempts := 0, diff := "" }

/-- The response of the happy-path run. -/
def happyResp : OptimizeResponse :=
  match (optimize_sql happyEnv happySettings "SELECT x FROM t").fst with
  | .ok r => r
  | .error _ => fallbackResponse

/-- The call log of the happy-path run. -/
def happyLog : CallLog := (optimize_sql happyEnv happySettings "SELECT x FROM t").snd

/-- The response of the run whose model always fails. -/
def modelDownResp : OptimizeResponse :=
  match (optimize_sql modelDownEnv happySettings "SELECT x FROM t").fst with
  | .ok r => r
  | .error _ => fallbackResponse

/-- The call log of the run whose model always fails. -/
def modelDownLog : CallLog := (optimize_sql modelDownEnv happySettings "SELECT x FROM t").snd

/-! ## Helper lemmas -/

/-- A string that extends a nonempty string on the right is nonempty. -/
theorem append_ne_empty_of_left (p x : String) (h : p.data ≠ []) : p ++ x ≠ "" := by
  intro hc
  cases p with
  | mk pd =>
    cases x with
    | mk xd =>
      apply h
      have hd := congrArg String.data hc
      simp [String.instAppend, String.append] at hd
      simp [hd.left]

/-- The Python or idiom with a nonempty default never yields the empty
string. -/
theorem pyOrOpt_ne_empty (o : Option String) (d : String) (hd : d ≠ "") :
    pyOrOpt o d ≠ "" := by
  cases o with
  | none => simpa [pyOrOpt]
  | some s =>
    by_cases hs : s = "" <;> simp [pyOrOpt, hs, hd]

/-- The last element delivered by getLast? belongs to the list. -/
theorem getLast?_mem_of_eq {l : List String} {x : String} (h : l.getLast? = some x) :
    x ∈ l := by
  induction l with
  | nil => simp at h
  | cons a t ih =>
    cases t with
    | nil => simp at h; simp [h]
    | cons b u =>
      rw [List.getLast?_cons_cons] at h
      exact List.mem_cons_of_mem a (ih h)

/-- A list is a full common leading run of itself. -/
theorem commonPrefixLen_self (l : List String) : commonPrefixLen l l = l.length := by
  induction l with
  | nil => rfl
  | cons a t ih => simp [commonPrefixLen, ih]

/-- On identical line lists the opcode computation yields one equal opcode
spanning the whole list, or nothing for empty lists; this coincides with the
difflib SequenceMatcher output on identical sequences. -/
theorem pyOpcodes_self (l : List String) :
    pyOpcodes l l =
      if 0 < l.length then [⟨.equal, 0, (l.length : Int), 0, (l.length : Int)⟩] else [] := by
  unfold pyOpcodes
  rw [commonPrefixLen_self]
  simp [List.drop_length, commonPrefixLen]

/-- Grouped opcodes of identical line lists are empty: the single equal
opcode is trimmed to the context width and then dropped as a change free
group. -/
theorem getGroupedOpcodes_self (l : List String) : getGroupedOpcodes 3 l l = [] := by
  cases l with
  | nil => rfl
  | cons a t =>
    unfold getGroupedOpcodes
    rw [pyOpcodes_self]
    have hlen : 0 < (a :: t).length := by simp
    rw [if_pos hlen]
    simp only [List.isEmpty_cons, if_neg]
    set L : Int := ((a :: t).length : Int) with hL
    simp only [adjustFirstOpcode, adjustLastOpcode]
    rw [if_pos trivial]
    set m : Int := 0 ⊔ (L - 3) with hm
    set k : Int := L ⊓ (m + 3) with hk
    have hkm : k ≤ m + 3 := inf_le_right
    have hcond : ¬((({ tag := DiffTag.equal, i1 := m, i2 := k, j1 := m, j2 := k } : Opcode).tag
        = DiffTag.equal)
        ∧ ({ tag := DiffTag.equal, i1 := m, i2 := k, j1 := m, j2 := k } : Opcode).i2
          - ({ tag := DiffTag.equal, i1 := m, i2 := k, j1 := m, j2 := k } : Opcode).i1
          > 3 + 3) := by
      intro hc
      have h2 : k - m > 6 := hc.2
      omega
    rw [groupOpcodesLoop, if_neg hcond, List.nil_append, groupOpcodesLoop]
    simp

/-- Candidate inference depends only on the membership behaviour of the
lowercased column names. -/
theorem partition_pure_of_names (props props' : List (String × String))
    (cols cols' : List ColumnInfo)
    (h : ∀ x, cols.any (fun c => pyLower c.name == x)
        = cols'.any (fun c => pyLower c.name == x)) :
    infer_partition_columns_from_properties props cols
      = infer_partition_columns_from_properties props' cols' := by
  unfold infer_partition_columns_from_properties
  exact List.filter_congr (fun x _ => h x)

/-- The next outcome of one attempt carries a nonempty failure reason and the
incremented attempt counter. -/
theorem attemptStep_next (env : Env) (s : Settings) (o : String) (eb : ExplainResult)
    (tb : List String) (ms : List TableMetadata) (i : Nat) (st : LoopSt)
    (reason : String) (st' : LoopSt) (eq : List String)
    (h : attemptStep env s o eb tb ms i st = (.next reason st', eq)) :
    reason ≠ "" ∧ st'.attempts = i + 1 := by
  unfold attemptStep at h
  dsimp only at h
  split at h
  · simp only [Prod.mk.injEq, StepOut.next.injEq] at h
    obtain ⟨⟨hr, hst⟩, -⟩ := h
    subst hr; subst hst
    exact ⟨pyOrOpt_ne_empty _ _ (by decide), rfl⟩
  · split at h
    · split at h
      · simp only [Prod.mk.injEq, StepOut.next.injEq] at h
        obtain ⟨⟨hr, hst⟩, -⟩ := h
        subst hr; subst hst
        exact ⟨by decide, rfl⟩
      · split at h
        · simp only [Prod.mk.injEq, StepOut.next.injEq] at h
          obtain ⟨⟨hr, hst⟩, -⟩ := h
          subst hr; subst hst
          exact ⟨append_ne_empty_of_left _ _ (by decide), rfl⟩
        · split at h
          · simp at h
          · simp only [Prod.mk.injEq, StepOut.next.injEq] at h
            obtain ⟨⟨hr, hst⟩, -⟩ := h
            subst hr; subst hst
            exact ⟨by decide, rfl⟩
    · simp at h

/-- The done outcome of one attempt is the success response: it carries the
untouched baseline, the incremented attempt counter, and a candidate
explanation that satisfies the improvement predicate. -/
theorem attemptStep_done (env : Env) (s : Settings) (o : String) (eb : ExplainResult)
    (tb : List String) (ms : List TableMetadata) (i : Nat) (st : LoopSt)
    (resp : OptimizeResponse) (eq : List String)
    (h : attemptStep env s o eb tb ms i st = (.done resp, eq)) :
    resp.ok = true ∧ resp.explain_before = eb ∧ resp.attempts = i + 1 ∧
      ∃ ae, resp.explain_after = some ae ∧ _is_improved eb ae = true := by
  unfold attemptStep at h
  dsimp only at h
  split at h
  · simp at h
  · split at h
    · split at h
      · simp at h
      · split at h
        · simp at h
        · split at h
          · simp only [Prod.mk.injEq, StepOut.done.injEq] at h
            obtain ⟨hr, -⟩ := h
            subst hr
            refine ⟨rfl, rfl, rfl, ?_⟩
            refine ⟨_, rfl, ?_⟩
            next himp => exact himp
          · simp at h
    · simp at h

/-- Invariant of the attempt loop: a returned response keeps the baseline in
explain_before, never exceeds the remaining attempt budget, a success carries
an improved candidate explanation, and a failure is the exhaustion response
whose error is the last recorded failure reason. -/
theorem attemptLoop_spec (env : Env) (s : Settings) (o : String) (eb : ExplainResult)
    (tb : List String) (ms : List TableMetadata) :
    ∀ (r i : Nat) (st : LoopSt) (log : CallLog) (resp : OptimizeResponse) (log' : CallLog),
    st.attempts = i →
    st.last_error = log.reasons.getLast? →
    (1 ≤ i → log.reasons ≠ []) →
    (∀ x ∈ log.reasons, x ≠ "") →
    attemptLoop env s o eb tb ms r i st log = (.ok resp, log') →
    resp.explain_before = eb ∧
    resp.attempts ≤ i + r ∧
    (resp.ok = true → ∃ ae, resp.explain_after = some ae ∧ _is_improved eb ae = true) ∧
    (resp.ok = false → resp.attempts = i + r ∧
      (1 ≤ i + r → log'.reasons ≠ [] ∧ resp.error = log'.reasons.getLast?)) := by
  intro r
  induction r with
  | zero =>
    intro i st log resp log' hatt hlast hne hall h
    rw [attemptLoop] at h
    simp only [Prod.mk.injEq] at h
    obtain ⟨hr, hl⟩ := h
    have hresp : resp = exhaustedResponse o eb tb ms st := by
      cases hr; rfl
    subst hresp; subst hl
    refine ⟨rfl, ?_, ?_, ?_⟩
    · simp [exhaustedResponse, hatt]
    · intro hok
      simp [exhaustedResponse] at hok
    · intro _
      refine ⟨by simp [exhaustedResponse, hatt], ?_⟩
      intro hi
      have hne' := hne (by omega)
      refine ⟨hne', ?_⟩
      obtain ⟨e, he⟩ := Option.isSome_iff_exists.mp (List.getLast?_isSome.mpr hne')
      have hene : e ≠ "" := hall e (getLast?_mem_of_eq he)
      have herr : (exhaustedResponse o eb tb ms st).error
          = some (pyOrOpt st.last_error "Failed to produce a valid optimized query") := rfl
      rw [herr, hlast, he]
      simp [pyOrOpt, hene]
  | succ r ih =>
    intro i st log resp log' hatt hlast hne hall h
    rw [attemptLoop] at h
    dsimp only at h
    cases hstep : attemptStep env s o eb tb ms i st with
    | mk out eq =>
      rw [hstep] at h
      cases out with
      | done resp0 =>
        simp only [Prod.mk.injEq] at h
        obtain ⟨hr, hl⟩ := h
        obtain ⟨hok, hbefore, hatt0, hae⟩ := attemptStep_done env s o eb tb ms i st resp0 eq hstep
        injection hr with hre
        subst hre
        refine ⟨hbefore, by omega, fun _ => hae, fun hfalse => ?_⟩
        rw [hok] at hfalse
        cases hfalse
      | crash e => simp at h
      | next reason st1 =>
        obtain ⟨hrne, hatt1⟩ := attemptStep_next env s o eb tb ms i st reason st1 eq hstep
        have ih' := ih (i + 1) { st1 with last_error := some reason }
          { engine := log.engine ++ eq, llmCalls := log.llmCalls + 1,
            reasons := log.reasons ++ [reason] } resp log'
          (by simpa using hatt1) (by simp [List.getLast?_concat]) (fun _ => by simp)
          (by
            intro x hx
            rcases List.mem_append.mp hx with hx1 | hx2
            · exact hall x hx1
            · simp at hx2
              subst hx2
              exact hrne)
          h
        obtain ⟨hb, hle, hsucc, hfail⟩ := ih'
        refine ⟨hb, by omega, hsucc, fun hfalse => ?_⟩
        obtain ⟨ha, hrest⟩ := hfail hfalse
        exact ⟨by omega, fun _ => hrest (by omega)⟩

/-- Characterisation of every returned (non crashing) pipeline outcome. -/
theorem optimize_sql_ok_spec (env : Env) (s : Settings) (sql : String)
    (resp : OptimizeResponse) (log : CallLog)
    (h : optimize_sql env s sql = (.ok resp, log)) :
    resp.attempts ≤ s.max_fix_attempts + 1 ∧
    ((resp.explain_before = { ok := false, text := "", error := resp.error }
        ∧ resp.attempts = 0 ∧ resp.explain_after = none)
      ∨ resp.explain_before = run_explain (env.query ("EXPLAIN " ++ pyStrip sql))) ∧
    (resp.ok = true →
      ∃ ae, resp.explain_after = some ae ∧ _is_improved resp.explain_before ae = true) ∧
    (resp.ok = false → 1 ≤ resp.attempts →
      resp.attempts = s.max_fix_attempts + 1 ∧ log.reasons ≠ [] ∧
        resp.error = log.reasons.getLast?) := by
  unfold optimize_sql at h
  dsimp only at h
  split at h
  · simp only [Prod.mk.injEq] at h
    obtain ⟨hr, hl⟩ := h
    injection hr with hre
    subst hre
    refine ⟨by simp, Or.inl ⟨rfl, rfl, rfl⟩, ?_, ?_⟩
    · intro hok
      simp at hok
    · intro _ hge
      simp at hge
  · split at h
    · simp only [Prod.mk.injEq] at h
      obtain ⟨hr, hl⟩ := h
      injection hr with hre
      subst hre
      refine ⟨by simp, Or.inl ⟨rfl, rfl, rfl⟩, ?_, ?_⟩
      · intro hok
        simp at hok
      · intro _ hge
        simp at hge
    · split at h
      · simp only [Prod.mk.injEq] at h
        obtain ⟨hr, hl⟩ := h
        injection hr with hre
        subst hre
        refine ⟨by simp, Or.inr rfl, ?_, ?_⟩
        · intro hok
          simp at hok
        · intro _ hge
          simp at hge
      · cases hext : extract_tables_trino (env.parse (pyStrip sql)) with
        | error e =>
          rw [hext] at h
          simp at h
        | ok refs =>
          rw [hext] at h
          dsimp only at h
          cases hmeta : fetch_metadata_for_tables env.query refs s.trino_catalog
              s.trino_schema with
          | mk mres mq =>
            rw [hmeta] at h
            dsimp only at h
            cases mres with
            | error e => simp at h
            | ok metas =>
              dsimp only at h
              have hloop := attemptLoop_spec env s (pyStrip sql)
                (run_explain (env.query ("EXPLAIN " ++ pyStrip sql)))
                (refs.map TableRef.fqtn) metas (s.max_fix_attempts + 1) 0 {}
                { engine := ["EXPLAIN " ++ pyStrip sql] ++ mq } resp log rfl rfl
                (fun h01 => absurd h01 (by decide))
                (by intro x hx; simp at hx) h
              obtain ⟨hb, hle, hsucc, hfail⟩ := hloop
              refine ⟨by omega, Or.inr hb, ?_, ?_⟩
              · intro hok
                rw [hb]
                exact hsucc hok
              · intro hko _
                obtain ⟨ha, hrest⟩ := hfail hko
                obtain ⟨hr1, hr2⟩ := hrest (by omega)
                exact ⟨by omega, hr1, hr2⟩

/-- The improvement predicate in explicit form: the candidate explanation
must have succeeded, and either at least one row estimate is missing or both
exist with the candidate within five percent of the baseline. -/
theorem is_improved_eq_iff (b a : ExplainResult) :
    _is_improved b a = true ↔
      (a.ok = true ∧ ((b.estimated_rows = none ∨ a.estimated_rows = none) ∨
        ∃ qb qa, b.estimated_rows = some qb ∧ a.estimated_rows = some qa ∧
          PyFloat.le qa (qb.mul tolerance105) = true)) := by
  unfold _is_improved
  cases hok : a.ok <;> rcases hb : b.estimated_rows with _ | qb <;>
    rcases ha : a.estimated_rows with _ | qa <;> simp [hok, hb, ha]

/-! ## Claim theorems -/

/-- C1: contrary to the claim, metadata gathering does not convert engine
failures into entries with empty columns or properties: a raised DESCRIBE or
SHOW CREATE TABLE error propagates out of fetch_metadata_for_tables, so the
function does not always return a TableMetadata list. -/
theorem fetch_metadata_raises_on_engine_failure :
    (fetch_metadata_for_tables describeFailsQuery [⟨"", "", "events"⟩] "hive" "default").fst
      = .error "TABLE_NOT_FOUND: Table hive.default.events does not exist"
    ∧ (fetch_metadata_for_tables showCreateFailsQuery [⟨"", "", "events"⟩] "hive" "default").fst
      = .error "Access Denied: Cannot show create table" :=
  ⟨rfl, rfl⟩

/-- C2: contrary to the claim, the read-only gate accepts a mutating INSERT
statement that embeds a SELECT subquery, because it searches the whole parse
tree for a Select node; with that statement as input in read-only mode the
pipeline proceeds past the gate and calls the engine. -/
theorem read_only_gate_accepts_insert_select :
    _is_read_only_select (some insertSelectAst) = true
    ∧ isQueryOnlyStatement insertSelectAst = false
    ∧ (optimize_sql insertEnv happySettings "INSERT INTO tgt SELECT * FROM src").snd.engine
        = ["EXPLAIN INSERT INTO tgt SELECT * FROM src"] :=
  ⟨rfl, rfl, rfl⟩

/-- Modelled from the claim wording for the improvement predicate: candidate
explain succeeded and either no row estimate was obtainable for either side,
or both estimates exist with the candidate at most 1.05 times the baseline.
This is the comparison definition for the refinement check, not a translation
of the source. -/
def improvedPerClaim (before after : ExplainResult) : Bool :=
  after.ok &&
    ((before.estimated_rows.isNone && after.estimated_rows.isNone) ||
      (match before.estimated_rows, after.estimated_rows with
       | some b, some a => PyFloat.le a (b.mul tolerance105)
       | _, _ => false))

/-- C3 counterexample: with a baseline estimate present and the candidate
estimate missing, the code accepts the candidate while the claim predicate,
which demands estimates missing on both sides, rejects it; hence the claimed
if and only if fails. -/
theorem is_improved_claim_counterexample :
    _is_improved { ok := true, text := "", estimated_rows := some ⟨100, 1⟩ }
        { ok := true, text := "plan" } = true
    ∧ improvedPerClaim { ok := true, text := "", estimated_rows := some ⟨100, 1⟩ }
        { ok := true, text := "plan" } = false :=
  ⟨rfl, rfl⟩

/-- C3 amended: the improvement predicate holds if and only if the candidate
explain succeeded and either at least one row estimate is missing or both
exist with the candidate at most 1.05 times the baseline; consequently a
successful pipeline outcome with both estimates present has the final
estimate at most 1.05 times the baseline. -/
theorem is_improved_amended_and_success_bound :
    (∀ b a, _is_improved b a = true ↔
      (a.ok = true ∧ ((b.estimated_rows = none ∨ a.estimated_rows = none) ∨
        ∃ qb qa, b.estimated_rows = some qb ∧ a.estimated_rows = some qa ∧
          PyFloat.le qa (qb.mul tolerance105) = true)))
    ∧ (∀ (env : Env) (s : Settings) (sql : String) (resp : OptimizeResponse)
        (log : CallLog) (ae : ExplainResult) (qb qa : PyFloat),
        optimize_sql env s sql = (.ok resp, log) → resp.ok = true →
        resp.explain_after = some ae → resp.explain_before.estimated_rows = some qb →
        ae.estimated_rows = some qa → PyFloat.le qa (qb.mul tolerance105) = true) := by
  refine ⟨is_improved_eq_iff, ?_⟩
  intro env s sql resp log ae qb qa h hok hafter hbe ha
  obtain ⟨-, -, hsucc, -⟩ := optimize_sql_ok_spec env s sql resp log h
  obtain ⟨ae', hae', himp⟩ := hsucc hok
  rw [hafter] at hae'
  injection hae' with hae2
  subst hae2
  obtain ⟨-, hcases⟩ := (is_improved_eq_iff resp.explain_before ae).mp himp
  rcases hcases with hnone | ⟨qb', qa', hqb', hqa', hle⟩
  · rcases hnone with hn | hn
    · rw [hbe] at hn; cases hn
    · rw [ha] at hn; cases hn
  · rw [hbe] at hqb'
    rw [ha] at hqa'
    injection hqb' with e1
    injection hqa' with e2
    subst e1; subst e2
    exact hle

/-- C3 witness: the happy-path run succeeds and its concrete estimates 900
and 1000 satisfy the five percent bound through the amended theorem. -/
theorem is_improved_amended_witness :
    optimize_sql happyEnv happySettings "SELECT x FROM t" = (.ok happyResp, happyLog)
    ∧ happyResp.ok = true
    ∧ PyFloat.le ⟨900, 1⟩ (PyFloat.mul ⟨1000, 1⟩ tolerance105) = true :=
  ⟨rfl, rfl,
    is_improved_amended_and_success_bound.2 happyEnv happySettings "SELECT x FROM t"
      happyResp happyLog { ok := true, text := "rows: 900", estimated_rows := some ⟨900, 1⟩ }
      ⟨1000, 1⟩ ⟨900, 1⟩ rfl rfl rfl rfl rfl⟩

/-- C4 counterexample: a syntactically valid JSON object of the wrong shape
is not a model-call failure: the parse succeeds with ok true and no error,
only the optimized_sql field is missing; moreover a contract shaped object
whose optimized_sql is a truthy non-string value crashes the run with an
uncaught AttributeError instead of feeding the next fix attempt. -/
theorem parser_accepts_wrong_shape_counterexample :
    (llm_optimize (.ok wrongShapePayload)).ok = true
    ∧ (llm_optimize (.ok wrongShapePayload)).error = none
    ∧ (llm_optimize (.ok wrongShapePayload)).optimized_sql = none
    ∧ (optimize_sql nonStringEnv happySettings "SELECT x FROM t").fst
        = .error "AttributeError: strip called on a non-string optimized_sql" :=
  ⟨rfl, rfl, rfl, rfl⟩

/-- C4 amended: the structured contract payload, bare or fenced, round-trips
to a successful result with the stated fields; invalid JSON and non-object
documents yield a model-call failure; but an object of any shape is accepted
with missing fields defaulted, and the orchestrator treats a missing
optimized_sql as empty output feeding the next fix attempt. -/
theorem model_output_parsing_amended :
    llm_optimize (.ok contractPayload) =
      { ok := true, optimized_sql := some (.str "SELECT 1")
        changes := some (.arr [.str "x"]), assumptions := some (.arr [])
        risk := some (.str "low"), raw_text := some contractPayload }
    ∧ (llm_optimize (.ok contractPayloadFenced)).ok = true
    ∧ (llm_optimize (.ok contractPayloadFenced)).optimized_sql = some (.str "SELECT 1")
    ∧ (llm_optimize (.ok contractPayloadFenced)).risk = some (.str "low")
    ∧ (∀ t, _parse_json_strict t = none →
        llm_optimize (.ok t) = { ok := false, error := some jsonDecodeErrText })
    ∧ (∀ t v, _parse_json_strict t = some v → (∀ fields, v ≠ JsonV.obj fields) →
        llm_optimize (.ok t) = { ok := false, error := some getOnNonDictErrText })
    ∧ (∀ t fields, _parse_json_strict t = some (.obj fields) →
        (llm_optimize (.ok t)).ok = true
          ∧ (llm_optimize (.ok t)).optimized_sql = pyDictGet fields "optimized_sql")
    ∧ (∀ res : LLMResult, res.optimized_sql = none → llmOutputUsable res = false)
    ∧ (∀ e, llm_optimize (.error e) = { ok := false, error := some e }) := by
  refine ⟨rfl, rfl, rfl, rfl, ?_, ?_, ?_, ?_, fun e => rfl⟩
  · intro t h
    simp [llm_optimize, h]
  · intro t v h hne
    cases v with
    | obj fields => exact absurd rfl (hne fields)
    | null => simp [llm_optimize, h]
    | bool b => simp [llm_optimize, h]
    | num q => simp [llm_optimize, h]
    | str s => simp [llm_optimize, h]
    | arr l => simp [llm_optimize, h]
  · intro t fields h
    constructor
    · simp [llm_optimize, h]
    · simp [llm_optimize, h]
  · intro res h
    simp [llmOutputUsable, h]

/-- C4 witness: a concrete non-JSON text instantiates the invalid JSON case
of the amended theorem. -/
theorem model_output_parsing_witness :
    _parse_json_strict "not json" = none
    ∧ llm_optimize (.ok "not json") = { ok := false, error := some jsonDecodeErrText } :=
  ⟨rfl, model_output_parsing_amended.2.2.2.2.1 "not json" rfl⟩

/-- C5: the attempts count of every returned outcome is at most
max_fix_attempts plus one, and a failure outcome that consumed at least one
attempt is the exhaustion outcome: its attempts equal max_fix_attempts plus
one and its error is the last recorded per-attempt failure reason. -/
theorem attempts_bounded_and_exhaustion (env : Env) (s : Settings) (sql : String)
    (resp : OptimizeResponse) (log : CallLog)
    (h : optimize_sql env s sql = (.ok resp, log)) :
    resp.attempts ≤ s.max_fix_attempts + 1 ∧
    (resp.ok = false → 1 ≤ resp.attempts →
      resp.attempts = s.max_fix_attempts + 1 ∧ log.reasons ≠ [] ∧
        resp.error = log.reasons.getLast?) :=
  ⟨(optimize_sql_ok_spec env s sql resp log h).1,
   (optimize_sql_ok_spec env s sql resp log h).2.2.2⟩

/-- C5 witness: the run whose model always fails exhausts the default bound
of two fix attempts, returning failure with three attempts and the last
recorded reason as its error. -/
theorem attempts_bounded_witness :
    optimize_sql modelDownEnv happySettings "SELECT x FROM t" = (.ok modelDownResp, modelDownLog)
    ∧ modelDownResp.ok = false
    ∧ 1 ≤ modelDownResp.attempts
    ∧ (modelDownResp.attempts = happySettings.max_fix_attempts + 1
       ∧ modelDownLog.reasons ≠ [] ∧ modelDownResp.error = modelDownLog.reasons.getLast?) :=
  ⟨rfl, rfl, by decide,
    (attempts_bounded_and_exhaustion modelDownEnv happySettings "SELECT x FROM t"
      modelDownResp modelDownLog rfl).2 rfl (by decide)⟩

/-- C6: an empty or all-whitespace input is rejected immediately with a
failure outcome, zero attempts, empty diff, and no engine or model call. -/
theorem empty_sql_rejected (env : Env) (s : Settings) (sql : String)
    (h : pyStrip sql = "") :
    optimize_sql env s sql =
      (.ok { ok := false, original_sql := "", optimized_sql := none
             explain_before := { ok := false, text := "", error := some "Empty SQL" }
             explain_after := none, tables := [], metadata := [], attempts := 0, diff := ""
             error := some "Empty SQL" },
       { engine := [], llmCalls := 0, reasons := [] }) := by
  unfold optimize_sql
  rw [h]
  simp

/-- C6 witness: a whitespace-only input instantiates the rejection. -/
theorem empty_sql_rejected_witness :
    pyStrip " \t\n " = ""
    ∧ optimize_sql happyEnv happySettings " \t\n " =
      (.ok { ok := false, original_sql := "", optimized_sql := none
             explain_before := { ok := false, text := "", error := some "Empty SQL" }
             explain_after := none, tables := [], metadata := [], attempts := 0, diff := ""
             error := some "Empty SQL" },
       { engine := [], llmCalls := 0, reasons := [] }) :=
  ⟨rfl, empty_sql_rejected happyEnv happySettings " \t\n " rfl⟩

/-- C7: when the baseline explain of the original SQL fails, the run fails
immediately with the error derived from that explanation, zero attempts, no
explain_after, exactly one engine call and no model call. -/
theorem baseline_explain_failure_terminal (env : Env) (s : Settings) (sql : String)
    (h1 : pyStrip sql ≠ "")
    (h2 : s.read_only_mode = false ∨ _is_read_only_select (env.parse (pyStrip sql)) = true)
    (h3 : (run_explain (env.query ("EXPLAIN " ++ pyStrip sql))).ok = false) :
    optimize_sql env s sql =
      (.ok { ok := false, original_sql := pyStrip sql, optimized_sql := none
             explain_before := run_explain (env.query ("EXPLAIN " ++ pyStrip sql))
             explain_after := none, tables := [], metadata := [], attempts := 0, diff := ""
             error := some ("EXPLAIN failed for original SQL: "
               ++ pyStr (run_explain (env.query ("EXPLAIN " ++ pyStrip sql))).error) },
       { engine := ["EXPLAIN " ++ pyStrip sql], llmCalls := 0, reasons := [] }) := by
  unfold optimize_sql
  dsimp only
  rw [if_neg h1]
  have hgate : (s.read_only_mode && !_is_read_only_select (env.parse (pyStrip sql))) = false := by
    rcases h2 with h2 | h2 <;> simp [h2]
  rw [hgate]
  simp [h3]

/-- C7 witness: an engine that refuses every call makes the baseline explain
fail and instantiates the terminal failure. -/
theorem baseline_explain_failure_witness :
    pyStrip "SELECT x FROM t" ≠ ""
    ∧ (run_explain (engineDownEnv.query ("EXPLAIN " ++ pyStrip "SELECT x FROM t"))).ok = false
    ∧ optimize_sql engineDownEnv happySettings "SELECT x FROM t" =
      (.ok { ok := false, original_sql := pyStrip "SELECT x FROM t", optimized_sql := none
             explain_before := run_explain
               (engineDownEnv.query ("EXPLAIN " ++ pyStrip "SELECT x FROM t"))
             explain_after := none, tables := [], metadata := [], attempts := 0, diff := ""
             error := some ("EXPLAIN failed for original SQL: " ++ pyStr (run_explain
               (engineDownEnv.query ("EXPLAIN " ++ pyStrip "SELECT x FROM t"))).error) },
       { engine := ["EXPLAIN " ++ pyStrip "SELECT x FROM t"], llmCalls := 0, reasons := [] }) :=
  ⟨by decide, rfl,
    baseline_explain_failure_terminal engineDownEnv happySettings "SELECT x FROM t"
      (by decide) (Or.inr rfl) rfl⟩

/-- C8: partition-candidate inference ignores the properties argument,
depends only on the membership behaviour of the lowercased column names, and
on the concrete column sets of the claim surfaces ds for one and nothing for
the other, case-insensitively. -/
theorem partition_inference_pure_and_matches :
    (∀ props props' cols, infer_partition_columns_from_properties props cols
        = infer_partition_columns_from_properties props' cols)
    ∧ (∀ props props' cols cols',
        (∀ x, cols.any (fun c => pyLower c.name == x)
            = cols'.any (fun c => pyLower c.name == x)) →
        infer_partition_columns_from_properties props cols
          = infer_partition_columns_from_properties props' cols')
    ∧ "ds" ∈ infer_partition_columns_from_properties []
        [⟨"id", "int"⟩, ⟨"ds", "varchar"⟩, ⟨"value", "double"⟩]
    ∧ "ds" ∈ infer_partition_columns_from_properties []
        [⟨"ID", "int"⟩, ⟨"DS", "varchar"⟩, ⟨"Value", "double"⟩]
    ∧ infer_partition_columns_from_properties [] [⟨"id", "int"⟩, ⟨"value", "double"⟩] = [] :=
  ⟨fun _ _ _ => rfl, partition_pure_of_names, by decide, by decide, by decide⟩

/-- C8 witness: two property maps and one concrete column list instantiate
the purity conjunct. -/
theorem partition_inference_witness :
    (∀ x, ([⟨"id", "int"⟩, ⟨"ds", "varchar"⟩] : List ColumnInfo).any
        (fun c => pyLower c.name == x)
      = ([⟨"id", "int"⟩, ⟨"ds", "varchar"⟩] : List ColumnInfo).any
        (fun c => pyLower c.name == x))
    ∧ infer_partition_columns_from_properties [("k", "v")] [⟨"id", "int"⟩, ⟨"ds", "varchar"⟩]
        = infer_partition_columns_from_properties [] [⟨"id", "int"⟩, ⟨"ds", "varchar"⟩] :=
  ⟨fun _ => rfl,
    partition_inference_pure_and_matches.2.1 [("k", "v")] [] _ _ (fun _ => rfl)⟩

/-- C9: the unified diff of a text against itself is the empty string. -/
theorem diff_identical_texts_empty (a : String) : _diff_text a a = "" := by
  unfold _diff_text unifiedDiff
  rw [getGroupedOpcodes_self]
  rfl

/-- C10: every returned outcome carries as explain_before either the
synthesized entry-rejection result, whose error equals the outcome error and
which comes with zero attempts and no explain_after, or exactly the single
pre-loop baseline explain of the stripped original SQL; the attempt loop
never overwrites it. -/
theorem baseline_field_preserved (env : Env) (s : Settings) (sql : String)
    (resp : OptimizeResponse) (log : CallLog)
    (h : optimize_sql env s sql = (.ok resp, log)) :
    (resp.explain_before = { ok := false, text := "", error := resp.error }
      ∧ resp.attempts = 0 ∧ resp.explain_after = none)
    ∨ resp.explain_before = run_explain (env.query ("EXPLAIN " ++ pyStrip sql)) :=
  (optimize_sql_ok_spec env s sql resp log h).2.1

/-- C10 witness: the happy-path run instantiates the baseline preservation;
its explain_before is the baseline explain result. -/
theorem baseline_field_preserved_witness :
    optimize_sql happyEnv happySettings "SELECT x FROM t" = (.ok happyResp, happyLog)
    ∧ ((happyResp.explain_before = { ok := false, text := "", error := happyResp.error }
        ∧ happyResp.attempts = 0 ∧ happyResp.explain_after = none)
      ∨ happyResp.explain_before
          = run_explain (happyEnv.query ("EXPLAIN " ++ pyStrip "SELECT x FROM t"))) :=
  ⟨rfl, baseline_field_preserved happyEnv happySettings "SELECT x FROM t"
    happyResp happyLog rfl⟩
